import Mathlib

/-!
Verification of the dentry consistency-checking module of apfsprogs
(`src/apfsck/dir.c`) and of the thin volume-enumeration tool
(`src/apfsprobe/apfsprobe.c`), as a shallow embedding in Lean.

Raw on-disk bytes are modelled as `List Nat` (one entry per byte);
little-endian multi-byte reads mirror `le16_to_cpu`/`le64_to_cpu`.
C `int` lengths that may go negative are modelled as `Int`.
The fatal `report(subject, message)` call, which never returns, is
modelled by returning `Except.error` carrying the subject/message pair
(and, at the record level, the registry state at the moment of abort).
-/

/-- Little-endian decoding of a byte list: first byte is least significant. -/
def le_bytes : List Nat → Nat
  | [] => 0
  | b :: bs => b + 256 * le_bytes bs

/-- Read `n` bytes little-endian at offset `off` of a raw buffer
(`le16_to_cpu` is `readLE buf off 2`, `le64_to_cpu` is `readLE buf off 8`). -/
def readLE (buf : List Nat) (off n : Nat) : Nat :=
  le_bytes ((buf.drop off).take n)

/-- The `ROUND_UP(x, y)` macro used for the 8-byte xfield padding. -/
def ROUND_UP (x y : Nat) : Nat := (x + y - 1) / y * y

/-- A fatal corruption finding: the two strings passed to `report`,
which prints them and terminates the run. -/
structure CheckError where
  subject : String
  message : String
deriving DecidableEq, Repr

/-- Modelled from the on-disk format headers (not under `src/`):
`APFS_DREC_EXT_TYPE_SIBLING_ID`, the only xfield type tag recognized by
`parse_dentry_xfields`. -/
def APFS_DREC_EXT_TYPE_SIBLING_ID : Nat := 1

/-- Modelled from the on-disk format headers (not under `src/`):
`sizeof(struct apfs_xf_blob)`, the fixed xfield header — a 16-bit
`xf_num_exts` count plus a 16-bit `xf_used_data` byte count. -/
def sizeof_xf_blob : Nat := 4

/-- Modelled from the on-disk format headers (not under `src/`):
`sizeof(struct apfs_x_field)`, one fixed-size field descriptor — an 8-bit
`x_type`, an 8-bit `x_flags` and a 16-bit `x_size`. -/
def sizeof_x_field : Nat := 4

/-- Embedding of `read_sibling_id_xfield` (`dir.c:21`): given the xfield
value bytes and the remaining length of the dentry value, fail if fewer
than 8 bytes remain, else decode a little-endian 64-bit sibling id.
Returns the consumed length (always `sizeof(__le64) = 8`) and the id. -/
def read_sibling_id_xfield (xval : List Nat) (len : Int) :
    Except CheckError (Nat × Nat) :=
  if len < 8 then
    .error ⟨"Sibling link xfield", "doesn't fit in dentry record."⟩
  else
    .ok (8, le_bytes (xval.take 8))

/-- The descriptor loop of `parse_dentry_xfields` (`dir.c:71-96`).
`blob` is the whole xfield blob, `i` the current descriptor index,
`remaining` the number of descriptors still to process, `xvalOff` the
offset of the current field payload, `len` the remaining length and
`sib` the sibling id decoded so far.  Returns the final remaining
length together with the sibling id. -/
def parse_xfields_loop (blob : List Nat) (remaining i xvalOff : Nat)
    (len : Int) (sib : Nat) : Except CheckError (Int × Nat) :=
  match remaining with
  | 0 => .ok (len, sib)
  | r + 1 =>
    let x_type := readLE blob (sizeof_xf_blob + sizeof_x_field * i) 1
    let x_size := readLE blob (sizeof_xf_blob + sizeof_x_field * i + 2) 2
    if x_type = APFS_DREC_EXT_TYPE_SIBLING_ID then
      match read_sibling_id_xfield (blob.drop xvalOff) len with
      | .error e => .error e
      | .ok (xlen, sib2) =>
        if xlen ≠ x_size then
          .error ⟨"Dentry xfield", "wrong size"⟩
        else
          let len2 : Int := len - xlen
          let xpad_len : Nat := ROUND_UP xlen 8 - xlen
          let len3 : Int := len2 - xpad_len
          if len3 < 0 then
            .error ⟨"Dentry xfield", "doesn't fit in record value."⟩
          else if ((blob.drop (xvalOff + xlen)).take xpad_len).any (· ≠ 0) then
            .error ⟨"Dentry xfield", "non-zero padding."⟩
          else
            parse_xfields_loop blob r (i + 1) (xvalOff + xlen + xpad_len) len3 sib2
    else
      .error ⟨"Dentry xfield", "invalid type."⟩

/-- Embedding of `parse_dentry_xfields` (`dir.c:42`): parse and check a
dentry value's extended fields.  `xblob` is the raw xfield bytes, `len`
their declared length.  Returns the sibling id (0 if none). -/
def parse_dentry_xfields (xblob : List Nat) (len : Int) :
    Except CheckError Nat :=
  if len = 0 then .ok 0
  else
    let len1 : Int := len - sizeof_xf_blob
    if len1 < 0 then
      .error ⟨"Dentry record", "no room for extended fields."⟩
    else
      let xcount := readLE xblob 0 2
      let len2 : Int := len1 - xcount * sizeof_x_field
      if len2 < 0 then
        .error ⟨"Dentry record", "number of xfields cannot fit."⟩
      else if (readLE xblob 2 2 : Int) ≠ len2 then
        .error ⟨"Dentry record", "value size incompatible with xfields."⟩
      else
        match parse_xfields_loop xblob xcount 0 (sizeof_xf_blob + sizeof_x_field * xcount) len2 0 with
        | .error e => .error e
        | .ok (len3, sib) =>
          if len3 ≠ 0 then
            .error ⟨"Dentry record", "length of xfields does not add up."⟩
          else
            .ok sib

deriving instance DecidableEq for Except

/-! ## The registries and the dentry record validator -/

/-- Modelled from the spec (struct `inode` is declared in `inode.h`, not
under `src/`): the per-inode accumulated checking state used by `dir.c` —
`i_link_count`, `i_child_count`, `i_mode` and `i_seen`.  A fresh entry is
zero-initialized: counts 0, mode 0 (file-type nibble not yet known) and
not yet seen. -/
structure Inode where
  i_link_count : Nat
  i_child_count : Nat
  i_mode : Nat
  i_seen : Bool
deriving DecidableEq, Repr

/-- The zero-initialized inode created on first reference. -/
def newInode : Inode := ⟨0, 0, 0, false⟩

/-- Modelled from the spec (struct `sibling` is declared outside `src/`):
one hard-link sibling-group entry — the name length and owning inode
recorded on first sight, plus the naming context (parent id and name)
recorded on first association. -/
structure Sibling where
  s_name_len : Nat
  s_owner : Nat
  s_assoc : Option (Nat × List Nat)
deriving DecidableEq, Repr

/-- Instrumentation: the externally visible calls a dentry record makes,
in program order — registry lookups/mutations and the external
`check_inode_ids` consistency check. -/
inductive Event where
  | getInode (ino : Nat)
  | linkCountInc (ino : Nat)
  | checkInodeIds (ino parent : Nat)
  | childCountInc (ino : Nat)
  | modeUpdate (ino : Nat)
  | getSibling (sid : Nat)
  | setOrCheckSibling (sid : Nat)
deriving DecidableEq, Repr

/-- The process-wide checking state: the Inode Registry, the Sibling
Registry (both association lists keyed by 64-bit id) and the ordered
trace of events. -/
structure FsState where
  inodes : List (Nat × Inode)
  siblings : List (Nat × Sibling)
  events : List Event
deriving DecidableEq, Repr

/-- Modelled from the spec: `get_inode(id)` is a create-if-absent lookup
in the Inode Registry (`inode.c` is not under `src/`); this returns the
table with the id guaranteed present. -/
def get_inode (ino : Nat) (tbl : List (Nat × Inode)) : List (Nat × Inode) :=
  match tbl.lookup ino with
  | some _ => tbl
  | none => tbl ++ [(ino, newInode)]

/-- Reading through an inode pointer: the registry entry for `ino`
(a fresh zero inode if absent, matching `get_inode`'s creation). -/
def lookInode (tbl : List (Nat × Inode)) (ino : Nat) : Inode :=
  (tbl.lookup ino).getD newInode

/-- In-place mutation through an inode pointer, modelled as updating the
table entry (inserting the fresh inode first when absent, exactly what
`get_inode` followed by a pointer write does). -/
def updInode (tbl : List (Nat × Inode)) (ino : Nat) (f : Inode → Inode) :
    List (Nat × Inode) :=
  match tbl with
  | [] => [(ino, f newInode)]
  | (j, v) :: rest =>
    if j = ino then (j, f v) :: rest else (j, v) :: updInode rest ino f

/-- Modelled from the spec: `get_sibling(id, name_len, inode)` creates a
new Sibling Registry entry on first sight, recording the name length and
owning inode; a later encounter must be consistent with the first (same
name length, same owning inode) or the run aborts (`sibling.c` is not
under `src/`). -/
def get_sibling (sid namelen owner : Nat) (tbl : List (Nat × Sibling)) :
    Except CheckError (List (Nat × Sibling)) :=
  match tbl.lookup sid with
  | none => .ok (tbl ++ [(sid, ⟨namelen, owner, none⟩)])
  | some s =>
    if s.s_name_len = namelen ∧ s.s_owner = owner then .ok tbl
    else .error ⟨"Sibling record", "inconsistent sibling fields"⟩

/-- Modelled from the spec: `set_or_check_sibling(parent_id, name_len,
name, sibling)` records the naming context on a sibling entry's first
association and on every later call verifies the dentry's name length
and name against it; a mismatch is fatal. -/
def set_or_check_sibling (parent_id namelen : Nat) (name : List Nat)
    (sid : Nat) (tbl : List (Nat × Sibling)) :
    Except CheckError (List (Nat × Sibling)) :=
  match tbl.lookup sid with
  | none => .error ⟨"Sibling record", "not registered"⟩
  | some s =>
    match s.s_assoc with
    | none =>
      .ok (tbl.map (fun p =>
        if p.1 = sid then (p.1, { p.2 with s_assoc := some (parent_id, name.take namelen) }) else p))
    | some (p0, nm0) =>
      if p0 = parent_id ∧ nm0 = name.take namelen then .ok tbl
      else .error ⟨"Sibling record", "inconsistent naming context"⟩

/-- Modelled from the on-disk format headers (not under `src/`):
`APFS_ROOT_DIR_PARENT`, the synthetic parent id of the root directory. -/
def APFS_ROOT_DIR_PARENT : Nat := 1

/-- Modelled from the on-disk format headers (not under `src/`):
`APFS_DREC_TYPE_MASK`, the 4-bit directory-entry type mask of the dentry
value's flags field. -/
def APFS_DREC_TYPE_MASK : Nat := 0xf

/-- `S_IFMT`, the file-type mask of a mode field. -/
def S_IFMT : Nat := 0xF000

/-- `S_IFDIR`, the directory file type. -/
def S_IFDIR : Nat := 0x4000

/-- Modelled from the on-disk format headers (not under `src/`):
`sizeof(struct apfs_drec_val)` — a 64-bit `file_id`, a 64-bit
`date_added` and a 16-bit `flags`, followed by the xfields. -/
def sizeof_drec_val : Nat := 18

/-- The dentry key, pre-parsed: `cat_cnid(&key->hdr)` (the parent inode
id held in the key header), the raw 32-bit `name_len_and_hash` field and
the name bytes.  Internal consistency of the key is the caller's duty
(`key.c` is not under `src/`). -/
structure DrecKey where
  parent_ino : Nat
  name_len_and_hash : Nat
  name : List Nat
deriving DecidableEq, Repr

/-- The target inode id of a dentry value: its little-endian 64-bit
`file_id` field at offset 0. -/
def dentryTarget (val : List Nat) : Nat := readLE val 0 8

/-- The parent-inode block of `parse_dentry_record` (`dir.c:129-136`):
when the parent id is not the synthetic root parent, look it up
(creating the entry, as `get_inode` does), require it to be seen and of
directory type, and increment its child count. -/
def parseParent (parent_ino : Nat) (st : FsState) :
    Except (FsState × CheckError) FsState :=
  if parent_ino ≠ APFS_ROOT_DIR_PARENT then
    let tbl := get_inode parent_ino st.inodes
    let st1 : FsState := { st with
      inodes := tbl,
      events := st.events ++ [.getInode parent_ino] }
    if (lookInode tbl parent_ino).i_seen = false then
      .error (st1, ⟨"Dentry record", "parent inode missing"⟩)
    else if (lookInode tbl parent_ino).i_mode &&& S_IFMT ≠ S_IFDIR then
      .error (st1, ⟨"Dentry record", "parent inode not directory."⟩)
    else
      .ok { st1 with
        inodes := updInode tbl parent_ino
          (fun i => { i with i_child_count := i.i_child_count + 1 }),
        events := st1.events ++ [.childCountInc parent_ino] }
  else
    .ok st

/-- Embedding of `parse_dentry_record` (`dir.c:110`): validate one dentry
record against the registries.  `chk` is the external `check_inode_ids`
relationship check (modelled from the spec: exact rule external, a
violation is a fatal report).  An error carries the registry state at
the moment `report` fires, since `report` terminates the run without
rolling anything back. -/
def parse_dentry_record (chk : Nat → Nat → Bool) (key : DrecKey)
    (val : List Nat) (len : Int) (st : FsState) :
    Except (FsState × CheckError) FsState :=
  let namelen := key.name_len_and_hash &&& 0x3FF
  if len < sizeof_drec_val then
    .error (st, ⟨"Dentry record", "value is too small."⟩)
  else
    let ino := dentryTarget val
    let st1 : FsState := { st with
      inodes := updInode (get_inode ino st.inodes) ino
        (fun i => { i with i_link_count := i.i_link_count + 1 }),
      events := st.events ++ [.getInode ino, .linkCountInc ino] }
    let parent_ino := key.parent_ino
    let st2 : FsState := { st1 with
      events := st1.events ++ [.checkInodeIds ino parent_ino] }
    if chk ino parent_ino = false then
      .error (st2, ⟨"Dentry record", "inconsistent inode ids"⟩)
    else
      match parseParent parent_ino st2 with
      | .error e => .error e
      | .ok st3 =>
        let flags := readLE val 16 2
        let dtype := flags &&& APFS_DREC_TYPE_MASK
        if dtype ≠ flags then
          .error (st3, ⟨"Dentry record", "reserved flags in use."⟩)
        else
          let filetype := (lookInode st3.inodes ino).i_mode >>> 12
          if filetype ≠ 0 ∧ filetype ≠ dtype then
            .error (st3, ⟨"Dentry record", "file mode doesn't match dentry type."⟩)
          else if dtype = 0 then
            .error (st3, ⟨"Dentry record", "invalid dentry type."⟩)
          else
            let st4 : FsState := { st3 with
              inodes := updInode st3.inodes ino
                (fun i => { i with i_mode := i.i_mode ||| (dtype <<< 12) }),
              events := st3.events ++ [.modeUpdate ino] }
            match parse_dentry_xfields (val.drop sizeof_drec_val) (len - sizeof_drec_val) with
            | .error e => .error (st4, e)
            | .ok sibling_id =>
              if sibling_id = 0 then
                .ok st4
              else
                let st5 : FsState := { st4 with
                  events := st4.events ++ [.getSibling sibling_id] }
                match get_sibling sibling_id namelen ino st4.siblings with
                | .error e => .error (st5, e)
                | .ok sibs1 =>
                  let st6 : FsState := { st5 with
                    siblings := sibs1,
                    events := st5.events ++ [.setOrCheckSibling sibling_id] }
                  match set_or_check_sibling parent_ino namelen key.name sibling_id sibs1 with
                  | .error e => .error (st6, e)
                  | .ok sibs2 => .ok { st6 with siblings := sibs2 }

/-- Run the validator over a list of records in order, stopping at the
first fatal report — the external B-tree walker's traversal. -/
def runRecords (chk : Nat → Nat → Bool)
    (recs : List (DrecKey × List Nat × Int)) (st : FsState) :
    Except (FsState × CheckError) FsState :=
  match recs with
  | [] => .ok st
  | (k, v, l) :: rest =>
    match parse_dentry_record chk k v l st with
    | .error e => .error e
    | .ok st2 => runRecords chk rest st2

/-- The initial state of a checking run: empty registries. -/
def initState : FsState := ⟨[], [], []⟩

/-! ## The volume enumeration tool (`src/apfsprobe/apfsprobe.c`) -/

/-- Modelled from the on-disk format headers (not under `src/`):
`APFS_NX_MAGIC`, the container superblock magic number. -/
def APFS_NX_MAGIC : Nat := 0x4253584E

/-- Modelled from the on-disk format headers (not under `src/`):
`APFS_NX_MAX_FILE_SYSTEMS`, the size of the `nx_fs_oid` array. -/
def APFS_NX_MAX_FILE_SYSTEMS : Nat := 100

/-- The container superblock fields `apfsprobe.c` reads: the magic, the
declared number of filesystem slots and the per-slot volume object ids. -/
structure NxSuperblock where
  nx_magic : Nat
  nx_max_file_systems : Nat
  nx_fs_oid : List Nat
deriving DecidableEq, Repr

/-- The volume superblock fields `print_volume_info` prints. -/
structure VolumeSb where
  apfs_volname : String
  apfs_fs_alloc_count : Nat
deriving DecidableEq, Repr

/-- One line of output the tool may produce. -/
inductive ProbeOut where
  | usageMsg
  | versionMsg
  | sysErrorMsg
  | readFailMsg
  | fatalMsg (s : String)
  | devHeader (dev : String)
  | tableHeader
  | volLine (name : String) (size : Nat)
  | volMissingMsg
deriving DecidableEq, Repr

/-- The observable outcome of a run of the tool: exit status and output. -/
structure ProbeResult where
  exit : Nat
  out : List ProbeOut
deriving DecidableEq, Repr

/-- A command-line argument after `argv[0]`, as `getopt` classifies it:
a single-character flag or a positional argument.  Modelled from the
spec: `getopt` itself is libc, out of scope. -/
inductive Arg where
  | flag (c : Char)
  | pos (s : String)
deriving DecidableEq, Repr

/-- Result of the `getopt` loop of `main` (`apfsprobe.c:119-131`):
`-v` calls `version()` (exits), any other flag calls `usage()` (exits),
otherwise the positional arguments remain. -/
inductive ArgScan where
  | sawVersion
  | sawBadFlag
  | positionals (ps : List String)
deriving DecidableEq, Repr

/-- Modelled from the spec: the `getopt(argc, argv, "v")` loop — the
first flag decides (`-v` is version, anything else is usage), and the
non-flag arguments are collected in order. -/
def scanArgs : List Arg → ArgScan
  | [] => .positionals []
  | .flag c :: _ => if c = 'v' then .sawVersion else .sawBadFlag
  | .pos s :: rest =>
    match scanArgs rest with
    | .positionals ps => .positionals (s :: ps)
    | r => r

/-- The externally supplied behavior `apfsprobe` relies on: whether
`open` succeeds, whether `pread` of the superblock succeeds and what it
reads, the `obj_verify_csum` verdict on it, and the `read_object`
oracle resolving a volume object id to its superblock. -/
structure ProbeEnv where
  openOk : Bool
  readOk : Bool
  sb : NxSuperblock
  csumOk : Bool
  vols : Nat → VolumeSb

/-- The slot loop of `print_volumes` (`apfsprobe.c:93-106`): for each of
the `nx_max_file_systems` slots starting at index `i` (with `r` slots
left), a zero object id prints the missing-volume error and returns
early; otherwise the volume superblock is resolved through
`read_object` and its name and allocation count are printed. -/
def print_slots (env : ProbeEnv) : Nat → Nat → List ProbeOut
  | _, 0 => []
  | i, r + 1 =>
    let vol_id := env.sb.nx_fs_oid.getD i 0
    if vol_id = 0 then [.volMissingMsg]
    else
      .volLine (env.vols vol_id).apfs_volname (env.vols vol_id).apfs_fs_alloc_count ::
        print_slots env (i + 1) r

/-- Embedding of `main` (`apfsprobe.c:109`) together with `read_super`
and `print_volumes`: classify the arguments, open the device, read and
verify the container superblock (magic, then checksum), check the slot
count against the array bound, then print each volume slot.  (In
`read_super` the code refers to the superblock through an undeclared
alias `current`; it is modelled as the superblock just read.)  Exit
status 1 on every `usage`, `version`, `system_error` or `fatal` path;
0 when `main` runs to completion. -/
def main_probe (args : List Arg) (env : ProbeEnv) : ProbeResult :=
  match args with
  | [] => ⟨1, []⟩
  | _ :: rest =>
    match scanArgs rest with
    | .sawVersion => ⟨1, [.versionMsg]⟩
    | .sawBadFlag => ⟨1, [.usageMsg]⟩
    | .positionals ps =>
      if ps.length ≠ 2 then ⟨1, [.usageMsg]⟩
      else
        let device := ps.headD ""
        if env.openOk = false then ⟨1, [.sysErrorMsg]⟩
        else if env.readOk = false then ⟨1, [.readFailMsg, .sysErrorMsg]⟩
        else if env.sb.nx_magic ≠ APFS_NX_MAGIC then ⟨1, [.fatalMsg "Not a superblock"]⟩
        else if env.csumOk = false then ⟨1, [.fatalMsg "Superblock is corrupted"]⟩
        else if APFS_NX_MAX_FILE_SYSTEMS ≤ env.sb.nx_max_file_systems then
          ⟨1, [.fatalMsg "Number of filesystems in container exceed limit"]⟩
        else
          ⟨0, .devHeader device :: .tableHeader ::
            print_slots env 0 env.sb.nx_max_file_systems⟩

/-- A well-formed xfield blob: one sibling-id field holding the value 1. -/
def xblobW : List Nat := [1,0, 8,0, 1,0,8,0, 1,0,0,0,0,0,0,0]

/-- The blob of testable-property Scenario C: one field declaring a 3-byte
payload, so 5 padding bytes are needed, the last of which is 1 not 0. -/
def xblobC6 : List Nat := [1,0, 8,0, 1,0,3,0, 9,9,9,0,0,0,0,1]

def countTargets (recs : List (DrecKey × List Nat × Int)) (j : Nat) : Nat :=
  recs.countP (fun r => dentryTarget r.2.1 == j)

def isCheckEvent : Event → Bool
  | .checkInodeIds _ _ => true
  | _ => false

def isSiblingEvent : Event → Bool
  | .getSibling _ => true
  | .setOrCheckSibling _ => true
  | _ => false

def valW : List Nat := [5,0,0,0,0,0,0,0, 0,0,0,0,0,0,0,0, 4,0]

def valResW : List Nat := [5,0,0,0,0,0,0,0, 0,0,0,0,0,0,0,0, 0x14,0]

def keyRootW : DrecKey := ⟨1, 3, [97,98,99]⟩

def keyOrphanW : DrecKey := ⟨2, 3, [97,98,99]⟩

def recsW : List (DrecKey × List Nat × Int) :=
  [(keyRootW, valW, 18), (keyRootW, valW, 18)]

def stFW : FsState :=
  ⟨[(5, ⟨2, 0, 16384, false⟩)], [],
   [.getInode 5, .linkCountInc 5, .checkInodeIds 5 1, .modeUpdate 5,
    .getInode 5, .linkCountInc 5, .checkInodeIds 5 1, .modeUpdate 5]⟩

def stF1 : FsState :=
  ⟨[(5, ⟨1, 0, 16384, false⟩)], [],
   [.getInode 5, .linkCountInc 5, .checkInodeIds 5 1, .modeUpdate 5]⟩

def valSib0W : List Nat := valW ++ [1,0, 8,0, 1,0,8,0, 0,0,0,0,0,0,0,0]

def stErrW : FsState :=
  ⟨[(5, ⟨1, 0, 0, false⟩), (2, ⟨0, 0, 0, false⟩)], [],
   [.getInode 5, .linkCountInc 5, .checkInodeIds 5 2, .getInode 2]⟩

def envW : ProbeEnv :=
  ⟨true, true, ⟨APFS_NX_MAGIC, 2, [7, 9]⟩, true, fun _ => ⟨"vol", 3⟩⟩

/-! ## Sanity checks on concrete inputs -/

example : parse_dentry_xfields [] 0 = .ok 0 := by decide

example :
    parse_dentry_xfields
      [1,0, 8,0, 1,0,8,0, 0x2A,0,0,0,0,0,0,0] 16 = .ok 0x2A := by decide

/-! ## Registry table lemmas -/

theorem lookInode_nil (j : Nat) : lookInode [] j = newInode := by
  simp [lookInode, List.lookup]

theorem lookInode_cons (hd : Nat × Inode) (tl : List (Nat × Inode)) (j : Nat) :
    lookInode (hd :: tl) j = if j = hd.1 then hd.2 else lookInode tl j := by
  unfold lookInode
  cases hbe : (j == hd.1) with
  | true =>
    simp only [beq_iff_eq] at hbe
    simp [List.lookup, hbe]
  | false =>
    have hne : j ≠ hd.1 := by simpa [beq_iff_eq] using hbe
    simp [List.lookup, hbe, hne]

theorem lookup_append_left (tbl l2 : List (Nat × Inode)) (j : Nat) (w : Inode)
    (h : tbl.lookup j = some w) : (tbl ++ l2).lookup j = some w := by
  induction tbl with
  | nil => simp [List.lookup] at h
  | cons hd tl ih =>
    cases hbe : (j == hd.1) with
    | true => simp_all [List.lookup]
    | false =>
      simp only [List.lookup, hbe] at h
      simp only [List.cons_append, List.lookup, hbe]
      exact ih h

theorem lookInode_append_single (tbl : List (Nat × Inode)) (ino j : Nat)
    (v : Inode) (h : tbl.lookup j = none) :
    lookInode (tbl ++ [(ino, v)]) j = if j = ino then v else newInode := by
  induction tbl with
  | nil =>
    unfold lookInode
    cases hbe : (j == ino) with
    | true =>
      simp only [beq_iff_eq] at hbe
      simp [List.lookup, hbe]
    | false =>
      have hne : j ≠ ino := by simpa [beq_iff_eq] using hbe
      simp [List.lookup, hbe, hne]
  | cons hd tl ih =>
    cases hbe : (j == hd.1) with
    | true => simp [List.lookup, hbe] at h
    | false =>
      simp only [List.lookup, hbe] at h
      have hne : j ≠ hd.1 := by simpa [beq_iff_eq] using hbe
      rw [List.cons_append, lookInode_cons]
      simp [hne, ih h]

theorem lookInode_get_inode (ino : Nat) (tbl : List (Nat × Inode)) (j : Nat) :
    lookInode (get_inode ino tbl) j = lookInode tbl j := by
  unfold get_inode
  cases h : tbl.lookup ino with
  | some v => rfl
  | none =>
    cases h2 : tbl.lookup j with
    | some w =>
      unfold lookInode
      rw [lookup_append_left tbl _ j w h2, h2]
    | none =>
      rw [lookInode_append_single tbl ino j newInode h2]
      unfold lookInode
      rw [h2]
      by_cases hj : j = ino <;> simp [hj]

theorem lookInode_updInode (tbl : List (Nat × Inode)) (ino : Nat)
    (f : Inode → Inode) (j : Nat) :
    lookInode (updInode tbl ino f) j =
      if j = ino then f (lookInode tbl ino) else lookInode tbl j := by
  induction tbl with
  | nil =>
    unfold updInode
    rw [lookInode_cons, lookInode_nil, lookInode_nil]
  | cons hd tl ih =>
    obtain ⟨k, v⟩ := hd
    simp only [updInode]
    by_cases hh : k = ino
    · subst hh
      simp only [if_pos rfl]
      by_cases hj : j = k <;> simp [lookInode_cons, hj]
    · rw [if_neg hh]
      have hik : ino ≠ k := fun c => hh c.symm
      by_cases hj : j = k
      · have hji : j ≠ ino := fun c => hh (hj.symm.trans c)
        simp [lookInode_cons, hj, hji, hh]
      · by_cases hji : j = ino
        · subst hji
          simp [lookInode_cons, hj, hik, ih, hh]
        · simp [lookInode_cons, hj, hji, hik, ih]

theorem read_sibling_ok_shape (xval : List Nat) (len : Int) (p : Nat × Nat)
    (h : read_sibling_id_xfield xval len = .ok p) :
    p.1 = 8 ∧ 8 ≤ len := by
  unfold read_sibling_id_xfield at h
  split at h
  · exact absurd h (by simp)
  · rename_i hlt
    cases h
    exact ⟨rfl, not_lt.mp hlt⟩

theorem parse_xfields_loop_ok_len (blob : List Nat) (r : Nat) :
    ∀ i xvalOff (len : Int) (sib : Nat) (len' : Int) (sib' : Nat),
      parse_xfields_loop blob r i xvalOff len sib = .ok (len', sib') →
      len' = len - 8 * r := by
  induction r with
  | zero =>
    intro i off len sib len' sib' h
    unfold parse_xfields_loop at h
    cases h
    simp
  | succ n ih =>
    intro i off len sib len' sib' h
    unfold parse_xfields_loop at h
    split at h
    · dsimp only at h
      split at h <;> simp at h
    · rename_i xlen sib2 hp
      have hp8 : xlen = 8 := (read_sibling_ok_shape _ _ _ hp).1
      have hlen8 : 8 ≤ len := (read_sibling_ok_shape _ _ _ hp).2
      subst hp8
      dsimp only at h
      split at h
      · split at h
        · simp at h
        · simp only [ROUND_UP] at h
          norm_num at h
          split at h
          · simp at h
          · have := ih _ _ _ _ _ _ h
            push_cast at this ⊢
            omega
      · simp at h

theorem read_sibling_error_shape (xval : List Nat) (len : Int) (e : CheckError)
    (h : read_sibling_id_xfield xval len = .error e) :
    e = ⟨"Sibling link xfield", "doesn't fit in dentry record."⟩ := by
  unfold read_sibling_id_xfield at h
  split at h
  · cases h; rfl
  · exact Except.noConfusion h

theorem parse_xfields_loop_no_pad (blob : List Nat) (r : Nat) :
    ∀ i xvalOff (len : Int) (sib : Nat),
      parse_xfields_loop blob r i xvalOff len sib ≠
        .error ⟨"Dentry xfield", "non-zero padding."⟩ := by
  induction r with
  | zero =>
    intro i off len sib h
    unfold parse_xfields_loop at h
    exact Except.noConfusion h
  | succ n ih =>
    intro i off len sib h
    unfold parse_xfields_loop at h
    split at h
    · rename_i e he
      dsimp only at h
      split at h
      · simp only [Except.error.injEq] at h
        rw [read_sibling_error_shape _ _ _ he] at h
        simp at h
      · simp at h
    · rename_i xlen sib2 hp
      have hp8 : xlen = 8 := (read_sibling_ok_shape _ _ _ hp).1
      subst hp8
      dsimp only at h
      split at h
      · split at h
        · simp at h
        · simp only [ROUND_UP] at h
          norm_num at h
          split at h
          · simp at h
          · exact ih _ _ _ _ h
      · simp at h

theorem parse_dentry_xfields_no_pad (xblob : List Nat) (len : Int) :
    parse_dentry_xfields xblob len ≠
      .error ⟨"Dentry xfield", "non-zero padding."⟩ := by
  intro h
  unfold parse_dentry_xfields at h
  split at h
  · exact Except.noConfusion h
  · dsimp only at h
    split at h
    · simp at h
    · split at h
      · simp at h
      · split at h
        · simp at h
        · split at h
          · rename_i e he
            simp only [Except.error.injEq] at h
            subst h
            exact parse_xfields_loop_no_pad _ _ _ _ _ _ he
          · split at h <;> simp at h

/-- C1: for a dentry value tail with a non-zero declared xfield length, the
extended-field parser succeeds only if the fixed header, the declared
descriptors, each payload and its zero padding to the next 8-byte boundary
consume exactly the declared length: the declared used-data byte count must
equal the length remaining after the descriptor span (otherwise the fatal
"value size incompatible with xfields." report), and after all descriptors the
remaining length must be exactly zero (otherwise the fatal "length of xfields
does not add up." report).  On success the length splits exactly into header,
descriptor span and 8 payload bytes per field. -/
theorem C1_xfields_exact_accounting (xblob : List Nat) (len : Int)
    (hne : len ≠ 0) :
    (∀ sib : Nat, parse_dentry_xfields xblob len = .ok sib →
      (readLE xblob 2 2 : Int) =
          len - (sizeof_xf_blob : Int) - (readLE xblob 0 2 : Int) * (sizeof_x_field : Int) ∧
      len = (sizeof_xf_blob : Int) + (readLE xblob 0 2 : Int) * (sizeof_x_field : Int)
              + 8 * (readLE xblob 0 2 : Int)) ∧
    (0 ≤ len - (sizeof_xf_blob : Int) →
      0 ≤ len - (sizeof_xf_blob : Int) - (readLE xblob 0 2 : Int) * (sizeof_x_field : Int) →
      (readLE xblob 2 2 : Int) ≠
          len - (sizeof_xf_blob : Int) - (readLE xblob 0 2 : Int) * (sizeof_x_field : Int) →
      parse_dentry_xfields xblob len =
        .error ⟨"Dentry record", "value size incompatible with xfields."⟩) ∧
    (∀ (len3 : Int) (sib : Nat),
      0 ≤ len - (sizeof_xf_blob : Int) →
      0 ≤ len - (sizeof_xf_blob : Int) - (readLE xblob 0 2 : Int) * (sizeof_x_field : Int) →
      (readLE xblob 2 2 : Int) =
          len - (sizeof_xf_blob : Int) - (readLE xblob 0 2 : Int) * (sizeof_x_field : Int) →
      parse_xfields_loop xblob (readLE xblob 0 2) 0
          (sizeof_xf_blob + sizeof_x_field * readLE xblob 0 2)
          (len - (sizeof_xf_blob : Int) - (readLE xblob 0 2 : Int) * (sizeof_x_field : Int)) 0 =
        .ok (len3, sib) →
      len3 ≠ 0 →
      parse_dentry_xfields xblob len =
        .error ⟨"Dentry record", "length of xfields does not add up."⟩) := by
  refine ⟨?_, ?_, ?_⟩
  · intro sib hok
    unfold parse_dentry_xfields at hok
    rw [if_neg hne] at hok
    dsimp only at hok
    split at hok
    · simp at hok
    · rename_i hc1
      split at hok
      · simp at hok
      · rename_i hc2
        split at hok
        · simp at hok
        · rename_i hused
          simp only [ne_eq, not_not] at hused
          split at hok
          · simp at hok
          · rename_i len3 sib0 hloop
            split at hok
            · simp at hok
            · rename_i hlen3
              simp only [ne_eq, not_not] at hlen3
              have hlen' := parse_xfields_loop_ok_len _ _ _ _ _ _ _ _ hloop
              refine ⟨hused, ?_⟩
              rw [hlen3] at hlen'
              linarith [hlen']
  · intro h1 h2 h3
    unfold parse_dentry_xfields
    rw [if_neg hne]
    dsimp only
    rw [if_neg (not_lt.mpr h1), if_neg (not_lt.mpr h2), if_pos h3]
  · intro len3 sib h1 h2 h3 hloop hne3
    unfold parse_dentry_xfields
    rw [if_neg hne]
    dsimp only
    rw [if_neg (not_lt.mpr h1), if_neg (not_lt.mpr h2), if_neg (not_not_intro h3), hloop]
    dsimp only
    rw [if_pos hne3]

/-- Witness for C1 at a concrete well-formed one-field blob of length 16. -/
theorem C1_xfields_exact_accounting_witness :
    (readLE xblobW 2 2 : Int) =
        16 - (sizeof_xf_blob : Int) - (readLE xblobW 0 2 : Int) * (sizeof_x_field : Int) ∧
    (16 : Int) = (sizeof_xf_blob : Int) + (readLE xblobW 0 2 : Int) * (sizeof_x_field : Int)
        + 8 * (readLE xblobW 0 2 : Int) :=
  (C1_xfields_exact_accounting xblobW 16 (by decide)).1 1 (by decide)

/-- C6 counterexample: the Scenario C blob (one field declaring a 3-byte
payload whose padding would end in 0x01) aborts with the "wrong size" report,
not with the claimed "non-zero padding." report: the only recognized xfield
type always consumes exactly 8 bytes, so the declared size 3 fails the size
check first. -/
theorem C6_padding_counterexample :
    parse_dentry_xfields xblobC6 16 = .error ⟨"Dentry xfield", "wrong size"⟩ ∧
    parse_dentry_xfields xblobC6 16 ≠
      .error ⟨"Dentry xfield", "non-zero padding."⟩ := by
  exact ⟨by decide, by decide⟩

/-- C6 (amended): the Scenario C blob aborts, but with the "wrong size"
report; and because the only recognized field type (sibling id) consumes
exactly 8 bytes — already a multiple of 8 — the padding region is always
empty, so the "non-zero padding." report is unreachable for every input. -/
theorem C6_padding_amended (xblob : List Nat) (len : Int) :
    parse_dentry_xfields xblobC6 16 = .error ⟨"Dentry xfield", "wrong size"⟩ ∧
    parse_dentry_xfields xblob len ≠
      .error ⟨"Dentry xfield", "non-zero padding."⟩ :=
  ⟨by decide, parse_dentry_xfields_no_pad xblob len⟩

theorem parseParent_ok (p : Nat) (st st3 : FsState)
    (h : parseParent p st = .ok st3) :
    (p = APFS_ROOT_DIR_PARENT ∧ st3 = st) ∨
    (p ≠ APFS_ROOT_DIR_PARENT ∧
      (lookInode st.inodes p).i_seen = true ∧
      (lookInode st.inodes p).i_mode &&& S_IFMT = S_IFDIR ∧
      st3.inodes = updInode (get_inode p st.inodes) p
        (fun i => { i with i_child_count := i.i_child_count + 1 }) ∧
      st3.siblings = st.siblings ∧
      st3.events = st.events ++ [.getInode p, .childCountInc p]) := by
  unfold parseParent at h
  split at h
  · rename_i hp
    dsimp only at h
    split at h
    · exact Except.noConfusion h
    · rename_i hseen
      split at h
      · exact Except.noConfusion h
      · rename_i hdir
        rw [lookInode_get_inode] at hseen hdir
        simp only [Bool.not_eq_false] at hseen
        simp only [ne_eq, not_not] at hdir
        right
        cases h
        exact ⟨hp, hseen, hdir, rfl, rfl, by simp⟩
  · rename_i hp
    simp only [ne_eq, not_not] at hp
    cases h
    exact .inl ⟨hp, rfl⟩

theorem parseParent_err_missing (p : Nat) (st : FsState)
    (hp : p ≠ APFS_ROOT_DIR_PARENT)
    (hseen : (lookInode st.inodes p).i_seen = false) :
    parseParent p st =
      .error ({ st with
          inodes := get_inode p st.inodes,
          events := st.events ++ [.getInode p] },
        ⟨"Dentry record", "parent inode missing"⟩) := by
  unfold parseParent
  rw [if_pos hp]
  dsimp only
  rw [lookInode_get_inode, if_pos hseen]

theorem parseParent_err_notdir (p : Nat) (st : FsState)
    (hp : p ≠ APFS_ROOT_DIR_PARENT)
    (hseen : (lookInode st.inodes p).i_seen = true)
    (hdir : (lookInode st.inodes p).i_mode &&& S_IFMT ≠ S_IFDIR) :
    parseParent p st =
      .error ({ st with
          inodes := get_inode p st.inodes,
          events := st.events ++ [.getInode p] },
        ⟨"Dentry record", "parent inode not directory."⟩) := by
  unfold parseParent
  rw [if_pos hp]
  dsimp only
  rw [lookInode_get_inode, hseen,
    if_neg (by simp : ¬((true : Bool) = false)), if_pos hdir]

theorem parseParent_err_state (p : Nat) (st st' : FsState) (e : CheckError)
    (h : parseParent p st = .error (st', e)) :
    st'.inodes = get_inode p st.inodes ∧ st'.siblings = st.siblings := by
  unfold parseParent at h
  split at h
  · dsimp only at h
    split at h
    · cases h
      exact ⟨rfl, rfl⟩
    · split at h
      · cases h
        exact ⟨rfl, rfl⟩
      · exact Except.noConfusion h
  · exact Except.noConfusion h

theorem parse_ok_shape (chk : Nat → Nat → Bool) (key : DrecKey) (val : List Nat)
    (len : Int) (st st2 : FsState)
    (h : parse_dentry_record chk key val len st = .ok st2) :
    ¬ len < (sizeof_drec_val : Int) ∧
    chk (dentryTarget val) key.parent_ino = true ∧
    ∃ stP sib,
      parseParent key.parent_ino
        { inodes := updInode (get_inode (dentryTarget val) st.inodes) (dentryTarget val)
            (fun i => { i with i_link_count := i.i_link_count + 1 }),
          siblings := st.siblings,
          events := (st.events ++ [.getInode (dentryTarget val), .linkCountInc (dentryTarget val)])
            ++ [.checkInodeIds (dentryTarget val) key.parent_ino] } = .ok stP ∧
      parse_dentry_xfields (val.drop sizeof_drec_val) (len - sizeof_drec_val) = .ok sib ∧
      readLE val 16 2 &&& APFS_DREC_TYPE_MASK = readLE val 16 2 ∧
      readLE val 16 2 ≠ 0 ∧
      ((lookInode stP.inodes (dentryTarget val)).i_mode >>> 12 = 0 ∨
        (lookInode stP.inodes (dentryTarget val)).i_mode >>> 12 = readLE val 16 2) ∧
      st2.inodes = updInode stP.inodes (dentryTarget val)
        (fun i => { i with i_mode := i.i_mode ||| (readLE val 16 2 <<< 12) }) ∧
      (sib = 0 →
        st2.siblings = stP.siblings ∧
        st2.events = stP.events ++ [.modeUpdate (dentryTarget val)]) ∧
      (sib ≠ 0 →
        st2.events = (stP.events ++ [.modeUpdate (dentryTarget val)])
          ++ [.getSibling sib, .setOrCheckSibling sib]) := by
  unfold parse_dentry_record at h
  split at h
  · exact Except.noConfusion h
  · rename_i hlen
    dsimp only at h
    split at h
    · exact Except.noConfusion h
    · rename_i hchk
      have hchk2 : chk (dentryTarget val) key.parent_ino = true := by
        revert hchk
        cases chk (dentryTarget val) key.parent_ino <;> simp
      refine ⟨hlen, hchk2, ?_⟩
      split at h
      · exact Except.noConfusion h
      · rename_i stP hpp
        refine ⟨stP, ?_⟩
        split at h
        · exact Except.noConfusion h
        · rename_i hflags
          simp only [ne_eq, not_not] at hflags
          rw [hflags] at h
          split at h
          · exact Except.noConfusion h
          · rename_i hft
            push_neg at hft
            split at h
            · exact Except.noConfusion h
            · rename_i hdz
              split at h
              · exact Except.noConfusion h
              · rename_i sib hx
                refine ⟨sib, hpp, hx, hflags, hdz, ?_, ?_⟩
                · by_cases h0 : (lookInode stP.inodes (dentryTarget val)).i_mode >>> 12 = 0
                  · exact .inl h0
                  · exact .inr (hft h0)
                · split at h
                  · rename_i hsz
                    cases h
                    refine ⟨rfl, ?_, ?_⟩
                    · intro _
                      exact ⟨rfl, rfl⟩
                    · intro hne
                      exact absurd hsz hne
                  · rename_i hsz
                    split at h
                    · exact Except.noConfusion h
                    · rename_i sibs1 hgs
                      split at h
                      · exact Except.noConfusion h
                      · rename_i sibs2 hsc
                        cases h
                        refine ⟨rfl, ?_, ?_⟩
                        · intro h0
                          exact absurd h0 hsz
                        · intro _
                          simp

theorem isSome_updInode_self (tbl : List (Nat × Inode)) (i : Nat) (f : Inode → Inode) :
    ((updInode tbl i f).lookup i).isSome = true := by
  induction tbl with
  | nil => simp [updInode, List.lookup]
  | cons hd tl ih =>
    obtain ⟨k, v⟩ := hd
    simp only [updInode]
    by_cases hik : i = k
    · by_cases hk : k = i
      · rw [if_pos hk]
        have hbe : (i == k) = true := by simp [hik]
        simp [List.lookup, hbe]
      · exact absurd hik.symm hk
    · have hbe : (i == k) = false := by simp [hik]
      have hk : ¬ k = i := fun c => hik c.symm
      rw [if_neg hk]
      simp [List.lookup, hbe, ih]

theorem isSome_updInode (tbl : List (Nat × Inode)) (i : Nat) (f : Inode → Inode)
    (j : Nat) (hj : (tbl.lookup j).isSome = true) :
    ((updInode tbl i f).lookup j).isSome = true := by
  induction tbl with
  | nil => simp [List.lookup] at hj
  | cons hd tl ih =>
    obtain ⟨k, v⟩ := hd
    simp only [updInode]
    by_cases hjk : j = k
    · have hbe : (j == k) = true := by simp [hjk]
      by_cases hk : k = i
      · rw [if_pos hk]
        simp [List.lookup, hbe]
      · rw [if_neg hk]
        simp [List.lookup, hbe]
    · have hbe : (j == k) = false := by simp [hjk]
      simp only [List.lookup, hbe] at hj
      by_cases hk : k = i
      · rw [if_pos hk]
        simp [List.lookup, hbe, hj]
      · rw [if_neg hk]
        simp [List.lookup, hbe, ih hj]

theorem isSome_get_inode (tbl : List (Nat × Inode)) (i j : Nat)
    (hj : (tbl.lookup j).isSome = true) :
    ((get_inode i tbl).lookup j).isSome = true := by
  unfold get_inode
  cases hli : tbl.lookup i with
  | some v => exact hj
  | none =>
    cases hlj : tbl.lookup j with
    | some w => simp [lookup_append_left tbl _ j w hlj]
    | none => simp [hlj] at hj

theorem linkcount_updInode_preserve (tbl : List (Nat × Inode)) (i : Nat)
    (f : Inode → Inode) (j : Nat)
    (hf : ∀ x, (f x).i_link_count = x.i_link_count) :
    (lookInode (updInode tbl i f) j).i_link_count =
      (lookInode tbl j).i_link_count := by
  rw [lookInode_updInode]
  by_cases hj : j = i
  · subst hj
    simp [hf]
  · simp [hj]

theorem linkcount_get_inode_preserve (tbl : List (Nat × Inode)) (i j : Nat) :
    (lookInode (get_inode i tbl) j).i_link_count = (lookInode tbl j).i_link_count := by
  rw [lookInode_get_inode]

/-- C10: registry mutations are not rolled back on error: at the moment any
fatal report is issued after the value-size check, the target inode's entry
already exists in the Inode Registry and its link count has already been
incremented. -/
theorem C10_no_rollback (chk : Nat → Nat → Bool) (key : DrecKey) (val : List Nat)
    (len : Int) (st st' : FsState) (e : CheckError)
    (hlen : ¬ len < (sizeof_drec_val : Int))
    (h : parse_dentry_record chk key val len st = .error (st', e)) :
    ((st'.inodes.lookup (dentryTarget val)).isSome = true) ∧
    (lookInode st'.inodes (dentryTarget val)).i_link_count =
      (lookInode st.inodes (dentryTarget val)).i_link_count + 1 := by
  have hbase_some : ((updInode (get_inode (dentryTarget val) st.inodes) (dentryTarget val)
      (fun i => { i with i_link_count := i.i_link_count + 1 })).lookup (dentryTarget val)).isSome = true :=
    isSome_updInode_self _ _ _
  have hbase_link : (lookInode (updInode (get_inode (dentryTarget val) st.inodes) (dentryTarget val)
      (fun i => { i with i_link_count := i.i_link_count + 1 })) (dentryTarget val)).i_link_count =
      (lookInode st.inodes (dentryTarget val)).i_link_count + 1 := by
    rw [lookInode_updInode]
    simp [lookInode_get_inode]
  unfold parse_dentry_record at h
  split at h
  · rename_i hl
    exact absurd hl hlen
  · dsimp only at h
    split at h
    · cases h
      exact ⟨hbase_some, hbase_link⟩
    · split at h
      · rename_i epair heq
        obtain ⟨stE, eE⟩ := epair
        cases h
        obtain ⟨hi, _⟩ := parseParent_err_state _ _ _ _ heq
        dsimp only at hi
        rw [hi]
        exact ⟨isSome_get_inode _ _ _ hbase_some, by
          rw [linkcount_get_inode_preserve]
          exact hbase_link⟩
      · rename_i stP hpp
        have hcases := parseParent_ok _ _ _ hpp
        have hstP_some : ((stP.inodes).lookup (dentryTarget val)).isSome = true := by
          rcases hcases with ⟨_, rfl⟩ | ⟨_, _, _, hinodes, _, _⟩
          · exact hbase_some
          · rw [hinodes]
            dsimp only
            exact isSome_updInode _ _ _ _ (isSome_get_inode _ _ _ hbase_some)
        have hstP_link : (lookInode stP.inodes (dentryTarget val)).i_link_count =
            (lookInode st.inodes (dentryTarget val)).i_link_count + 1 := by
          rcases hcases with ⟨_, rfl⟩ | ⟨_, _, _, hinodes, _, _⟩
          · exact hbase_link
          · rw [hinodes]
            dsimp only
            rw [lookInode_updInode]
            by_cases hpi : dentryTarget val = key.parent_ino
            · rw [if_pos hpi]
              dsimp only
              rw [lookInode_get_inode, ← hpi]
              exact hbase_link
            · rw [if_neg hpi, lookInode_get_inode]
              exact hbase_link
        split at h
        · cases h
          exact ⟨hstP_some, hstP_link⟩
        · split at h
          · cases h
            exact ⟨hstP_some, hstP_link⟩
          · split at h
            · cases h
              exact ⟨hstP_some, hstP_link⟩
            · have hst4_some : ((updInode stP.inodes (dentryTarget val)
                  (fun i => { i with i_mode := i.i_mode ||| ((readLE val 16 2 &&& APFS_DREC_TYPE_MASK) <<< 12) })).lookup
                  (dentryTarget val)).isSome = true := isSome_updInode_self _ _ _
              have hst4_link : (lookInode (updInode stP.inodes (dentryTarget val)
                  (fun i => { i with i_mode := i.i_mode ||| ((readLE val 16 2 &&& APFS_DREC_TYPE_MASK) <<< 12) }))
                  (dentryTarget val)).i_link_count =
                  (lookInode st.inodes (dentryTarget val)).i_link_count + 1 := by
                rw [lookInode_updInode, if_pos rfl]
                dsimp only
                exact hstP_link
              split at h
              · cases h
                exact ⟨hst4_some, hst4_link⟩
              · split at h
                · exact Except.noConfusion h
                · split at h
                  · cases h
                    exact ⟨hst4_some, hst4_link⟩
                  · split at h
                    · cases h
                      exact ⟨hst4_some, hst4_link⟩
                    · exact Except.noConfusion h

theorem seen_bump_preserve (tbl : List (Nat × Inode)) (ino j : Nat) :
    (lookInode (updInode (get_inode ino tbl) ino
      (fun i => { i with i_link_count := i.i_link_count + 1 })) j).i_seen =
      (lookInode tbl j).i_seen := by
  rw [lookInode_updInode]
  by_cases hj : j = ino
  · subst hj
    simp [lookInode_get_inode]
  · simp [hj, lookInode_get_inode]

theorem mode_bump_preserve (tbl : List (Nat × Inode)) (ino j : Nat) :
    (lookInode (updInode (get_inode ino tbl) ino
      (fun i => { i with i_link_count := i.i_link_count + 1 })) j).i_mode =
      (lookInode tbl j).i_mode := by
  rw [lookInode_updInode]
  by_cases hj : j = ino
  · subst hj
    simp [lookInode_get_inode]
  · simp [hj, lookInode_get_inode]

theorem child_bump_preserve (tbl : List (Nat × Inode)) (ino j : Nat) :
    (lookInode (updInode (get_inode ino tbl) ino
      (fun i => { i with i_link_count := i.i_link_count + 1 })) j).i_child_count =
      (lookInode tbl j).i_child_count := by
  rw [lookInode_updInode]
  by_cases hj : j = ino
  · subst hj
    simp [lookInode_get_inode]
  · simp [hj, lookInode_get_inode]

theorem child_updMode (tbl : List (Nat × Inode)) (i j d : Nat) :
    (lookInode (updInode tbl i
      (fun x => { x with i_mode := x.i_mode ||| (d <<< 12) })) j).i_child_count =
      (lookInode tbl j).i_child_count := by
  rw [lookInode_updInode]
  by_cases hj : j = i
  · subst hj
    simp
  · simp [hj]

/-- C2: for a dentry record whose parent inode id is not the synthetic
root-parent value, the validator looks the parent up and reports fatally if it
is not already seen ("parent inode missing") or if its file-type bits do not
resolve to directory ("parent inode not directory."); when both checks pass
(in particular whenever the record is accepted) the parent inode's child count
is incremented by exactly one. -/
theorem C2_parent_checks (chk : Nat → Nat → Bool) (key : DrecKey) (val : List Nat)
    (len : Int) (st : FsState)
    (hroot : key.parent_ino ≠ APFS_ROOT_DIR_PARENT)
    (hlen : ¬ len < (sizeof_drec_val : Int))
    (hchk : chk (dentryTarget val) key.parent_ino = true) :
    ((lookInode st.inodes key.parent_ino).i_seen = false →
      ∃ st', parse_dentry_record chk key val len st =
        .error (st', ⟨"Dentry record", "parent inode missing"⟩)) ∧
    ((lookInode st.inodes key.parent_ino).i_seen = true →
      (lookInode st.inodes key.parent_ino).i_mode &&& S_IFMT ≠ S_IFDIR →
      ∃ st', parse_dentry_record chk key val len st =
        .error (st', ⟨"Dentry record", "parent inode not directory."⟩)) ∧
    (∀ st2, parse_dentry_record chk key val len st = .ok st2 →
      (lookInode st2.inodes key.parent_ino).i_child_count =
        (lookInode st.inodes key.parent_ino).i_child_count + 1) := by
  refine ⟨?_, ?_, ?_⟩
  · intro hseen
    exact ⟨_, by
      unfold parse_dentry_record
      rw [if_neg hlen]
      dsimp only
      rw [if_neg (by simp [hchk] : ¬ chk (dentryTarget val) key.parent_ino = false)]
      rw [parseParent_err_missing key.parent_ino _ hroot (by
        dsimp only
        rw [seen_bump_preserve]
        exact hseen)]⟩
  · intro hseen hdir
    exact ⟨_, by
      unfold parse_dentry_record
      rw [if_neg hlen]
      dsimp only
      rw [if_neg (by simp [hchk] : ¬ chk (dentryTarget val) key.parent_ino = false)]
      rw [parseParent_err_notdir key.parent_ino _ hroot
        (by dsimp only; rw [seen_bump_preserve]; exact hseen)
        (by dsimp only; rw [mode_bump_preserve]; exact hdir)]⟩
  · intro st2 hok
    obtain ⟨_, _, stP, sib, hpp, _, _, _, _, hino, _, _⟩ :=
      parse_ok_shape _ _ _ _ _ _ hok
    rcases parseParent_ok _ _ _ hpp with ⟨hr, _⟩ | ⟨_, _, _, hinodes, _, _⟩
    · exact absurd hr hroot
    · rw [hino, child_updMode, hinodes]
      dsimp only
      rw [lookInode_updInode, if_pos rfl]
      dsimp only
      rw [lookInode_get_inode]
      rw [child_bump_preserve]

theorem mode_updChild (tbl : List (Nat × Inode)) (p j : Nat) :
    (lookInode (updInode tbl p
      (fun i => { i with i_child_count := i.i_child_count + 1 })) j).i_mode =
      (lookInode tbl j).i_mode := by
  rw [lookInode_updInode]
  by_cases hj : j = p
  · subst hj
    simp
  · simp [hj]

theorem parseParent_root (p : Nat) (st : FsState)
    (hp : p = APFS_ROOT_DIR_PARENT) : parseParent p st = .ok st := by
  unfold parseParent
  rw [if_neg (not_not_intro hp)]

theorem parseParent_ok_of_seen_dir (p : Nat) (st : FsState)
    (hp : p ≠ APFS_ROOT_DIR_PARENT)
    (hseen : (lookInode st.inodes p).i_seen = true)
    (hdir : (lookInode st.inodes p).i_mode &&& S_IFMT = S_IFDIR) :
    parseParent p st = .ok { st with
      inodes := updInode (get_inode p st.inodes) p
        (fun i => { i with i_child_count := i.i_child_count + 1 }),
      events := (st.events ++ [.getInode p]) ++ [.childCountInc p] } := by
  unfold parseParent
  rw [if_pos hp]
  dsimp only
  rw [lookInode_get_inode, hseen,
    if_neg (by simp : ¬((true : Bool) = false)),
    if_neg (not_not_intro hdir)]

theorem parseParent_ok_mode (p : Nat) (st stP : FsState) (j : Nat)
    (h : parseParent p st = .ok stP) :
    (lookInode stP.inodes j).i_mode = (lookInode st.inodes j).i_mode := by
  rcases parseParent_ok _ _ _ h with ⟨_, rfl⟩ | ⟨_, _, _, hinodes, _, _⟩
  · rfl
  · rw [hinodes, mode_updChild, lookInode_get_inode]

theorem parse_after_parent (chk : Nat → Nat → Bool) (key : DrecKey)
    (val : List Nat) (len : Int) (st stP : FsState)
    (hlen : ¬ len < (sizeof_drec_val : Int))
    (hchk : chk (dentryTarget val) key.parent_ino = true)
    (hpp : parseParent key.parent_ino
      { inodes := updInode (get_inode (dentryTarget val) st.inodes) (dentryTarget val)
          (fun i => { i with i_link_count := i.i_link_count + 1 }),
        siblings := st.siblings,
        events := (st.events ++ [.getInode (dentryTarget val), .linkCountInc (dentryTarget val)])
          ++ [.checkInodeIds (dentryTarget val) key.parent_ino] } = .ok stP) :
    ∃ rest : Except (FsState × CheckError) FsState,
      parse_dentry_record chk key val len st =
        (if readLE val 16 2 &&& APFS_DREC_TYPE_MASK ≠ readLE val 16 2 then
          .error (stP, ⟨"Dentry record", "reserved flags in use."⟩)
        else if (lookInode stP.inodes (dentryTarget val)).i_mode >>> 12 ≠ 0 ∧
            (lookInode stP.inodes (dentryTarget val)).i_mode >>> 12 ≠
              (readLE val 16 2 &&& APFS_DREC_TYPE_MASK) then
          .error (stP, ⟨"Dentry record", "file mode doesn't match dentry type."⟩)
        else if readLE val 16 2 &&& APFS_DREC_TYPE_MASK = 0 then
          .error (stP, ⟨"Dentry record", "invalid dentry type."⟩)
        else rest) := by
  exact ⟨_, by
    unfold parse_dentry_record
    rw [if_neg hlen]
    dsimp only
    rw [if_neg (by simp [hchk] : ¬ chk (dentryTarget val) key.parent_ino = false), hpp]⟩

theorem parseParent_exists_ok (key : DrecKey) (val : List Nat) (st : FsState)
    (hparent : key.parent_ino = APFS_ROOT_DIR_PARENT ∨
      ((lookInode st.inodes key.parent_ino).i_seen = true ∧
       (lookInode st.inodes key.parent_ino).i_mode &&& S_IFMT = S_IFDIR)) :
    ∃ stP, parseParent key.parent_ino
      { inodes := updInode (get_inode (dentryTarget val) st.inodes) (dentryTarget val)
          (fun i => { i with i_link_count := i.i_link_count + 1 }),
        siblings := st.siblings,
        events := (st.events ++ [.getInode (dentryTarget val), .linkCountInc (dentryTarget val)])
          ++ [.checkInodeIds (dentryTarget val) key.parent_ino] } = .ok stP := by
  rcases hparent with hroot | ⟨hseen, hdir⟩
  · exact ⟨_, parseParent_root _ _ hroot⟩
  · by_cases hr : key.parent_ino = APFS_ROOT_DIR_PARENT
    · exact ⟨_, parseParent_root _ _ hr⟩
    · refine ⟨_, parseParent_ok_of_seen_dir _ _ hr ?_ ?_⟩
      · dsimp only
        rw [seen_bump_preserve]
        exact hseen
      · dsimp only
        rw [mode_bump_preserve]
        exact hdir

/-- C4: a dentry whose 4-bit directory-entry type is zero is always rejected
with a fatal report; when the target inode's file-type bits are already set
and differ from the dentry's type the validator reports the fatal "file mode
doesn't match dentry type." error; otherwise, on success, the inode's
file-type bits are set from the dentry (or-ing the type nibble into the mode,
so the first writer wins). -/
theorem C4_dentry_type_checks (chk : Nat → Nat → Bool) (key : DrecKey)
    (val : List Nat) (len : Int) (st : FsState)
    (hlen : ¬ len < (sizeof_drec_val : Int))
    (hchk : chk (dentryTarget val) key.parent_ino = true)
    (hparent : key.parent_ino = APFS_ROOT_DIR_PARENT ∨
      ((lookInode st.inodes key.parent_ino).i_seen = true ∧
       (lookInode st.inodes key.parent_ino).i_mode &&& S_IFMT = S_IFDIR)) :
    (readLE val 16 2 &&& APFS_DREC_TYPE_MASK = 0 →
      ∃ st' e, parse_dentry_record chk key val len st = .error (st', e)) ∧
    (readLE val 16 2 &&& APFS_DREC_TYPE_MASK = readLE val 16 2 →
     (lookInode st.inodes (dentryTarget val)).i_mode >>> 12 ≠ 0 →
     (lookInode st.inodes (dentryTarget val)).i_mode >>> 12 ≠
        readLE val 16 2 &&& APFS_DREC_TYPE_MASK →
      ∃ st', parse_dentry_record chk key val len st =
        .error (st', ⟨"Dentry record", "file mode doesn't match dentry type."⟩)) ∧
    (∀ st2, parse_dentry_record chk key val len st = .ok st2 →
      (lookInode st2.inodes (dentryTarget val)).i_mode =
        (lookInode st.inodes (dentryTarget val)).i_mode ||| (readLE val 16 2 <<< 12)) := by
  obtain ⟨stP, hpp⟩ := parseParent_exists_ok key val st hparent
  obtain ⟨rest, heq⟩ := parse_after_parent _ _ _ _ _ _ hlen hchk hpp
  have hmode : (lookInode stP.inodes (dentryTarget val)).i_mode =
      (lookInode st.inodes (dentryTarget val)).i_mode := by
    rw [parseParent_ok_mode _ _ _ _ hpp]
    dsimp only
    rw [mode_bump_preserve]
  refine ⟨?_, ?_, ?_⟩
  · intro h0
    rw [heq]
    by_cases hres : readLE val 16 2 &&& APFS_DREC_TYPE_MASK ≠ readLE val 16 2
    · rw [if_pos hres]
      exact ⟨_, _, rfl⟩
    · rw [if_neg hres]
      by_cases hft : (lookInode stP.inodes (dentryTarget val)).i_mode >>> 12 ≠ 0 ∧
          (lookInode stP.inodes (dentryTarget val)).i_mode >>> 12 ≠
            readLE val 16 2 &&& APFS_DREC_TYPE_MASK
      · rw [if_pos hft]
        exact ⟨_, _, rfl⟩
      · rw [if_neg hft, if_pos h0]
        exact ⟨_, _, rfl⟩
  · intro hflags hft0 hftne
    rw [heq, if_neg (not_not_intro hflags),
      if_pos ⟨by rw [hmode]; exact hft0, by rw [hmode]; exact hftne⟩]
    exact ⟨_, rfl⟩
  · intro st2 hok
    obtain ⟨_, _, stP2, sib, hpp2, _, hflags2, _, _, hino, _, _⟩ :=
      parse_ok_shape _ _ _ _ _ _ hok
    rw [hino, lookInode_updInode, if_pos rfl]
    dsimp only
    have hm2 : (lookInode stP2.inodes (dentryTarget val)).i_mode =
        (lookInode st.inodes (dentryTarget val)).i_mode := by
      rw [parseParent_ok_mode _ _ _ _ hpp2]
      dsimp only
      rw [mode_bump_preserve]
    rw [hm2]

/-- C5: a dentry value whose flags field has any bit set outside the 4-bit
type mask is never accepted, and once the size, id-consistency and parent
checks pass it aborts precisely with the fatal "reserved flags in use."
report, regardless of whether the masked type value itself is valid. -/
theorem C5_reserved_flags (chk : Nat → Nat → Bool) (key : DrecKey)
    (val : List Nat) (len : Int) (st : FsState)
    (hres : readLE val 16 2 &&& APFS_DREC_TYPE_MASK ≠ readLE val 16 2) :
    (∀ st2, parse_dentry_record chk key val len st ≠ .ok st2) ∧
    (¬ len < (sizeof_drec_val : Int) →
     chk (dentryTarget val) key.parent_ino = true →
     (key.parent_ino = APFS_ROOT_DIR_PARENT ∨
       ((lookInode st.inodes key.parent_ino).i_seen = true ∧
        (lookInode st.inodes key.parent_ino).i_mode &&& S_IFMT = S_IFDIR)) →
      ∃ st', parse_dentry_record chk key val len st =
        .error (st', ⟨"Dentry record", "reserved flags in use."⟩)) := by
  constructor
  · intro st2 hok
    obtain ⟨_, _, _, _, _, _, hflags, _⟩ := parse_ok_shape _ _ _ _ _ _ hok
    exact hres hflags
  · intro hlen hchk hparent
    obtain ⟨stP, hpp⟩ := parseParent_exists_ok key val st hparent
    obtain ⟨rest, heq⟩ := parse_after_parent _ _ _ _ _ _ hlen hchk hpp
    rw [heq, if_pos hres]
    exact ⟨_, rfl⟩

theorem link_updMode (tbl : List (Nat × Inode)) (i j d : Nat) :
    (lookInode (updInode tbl i
      (fun x => { x with i_mode := x.i_mode ||| (d <<< 12) })) j).i_link_count =
      (lookInode tbl j).i_link_count := by
  rw [lookInode_updInode]
  by_cases hj : j = i
  · subst hj
    simp
  · simp [hj]

theorem link_updChild (tbl : List (Nat × Inode)) (p j : Nat) :
    (lookInode (updInode tbl p
      (fun i => { i with i_child_count := i.i_child_count + 1 })) j).i_link_count =
      (lookInode tbl j).i_link_count := by
  rw [lookInode_updInode]
  by_cases hj : j = p
  · subst hj
    simp
  · simp [hj]

theorem link_bump (tbl : List (Nat × Inode)) (ino j : Nat) :
    (lookInode (updInode (get_inode ino tbl) ino
      (fun i => { i with i_link_count := i.i_link_count + 1 })) j).i_link_count =
      (lookInode tbl j).i_link_count + (if j = ino then 1 else 0) := by
  rw [lookInode_updInode]
  by_cases hj : j = ino
  · subst hj
    simp [lookInode_get_inode]
  · simp [hj, lookInode_get_inode]

theorem parse_ok_linkcount (chk : Nat → Nat → Bool) (key : DrecKey)
    (val : List Nat) (len : Int) (st st2 : FsState)
    (h : parse_dentry_record chk key val len st = .ok st2) (j : Nat) :
    (lookInode st2.inodes j).i_link_count =
      (lookInode st.inodes j).i_link_count + (if j = dentryTarget val then 1 else 0) := by
  obtain ⟨_, _, stP, sib, hpp, _, _, _, _, hino, _, _⟩ :=
    parse_ok_shape _ _ _ _ _ _ h
  rw [hino, link_updMode]
  rcases parseParent_ok _ _ _ hpp with ⟨_, rfl⟩ | ⟨_, _, _, hinodes, _, _⟩
  · dsimp only
    rw [link_bump]
  · rw [hinodes]
    dsimp only
    rw [link_updChild, lookInode_get_inode, link_bump]

theorem runRecords_linkcount (chk : Nat → Nat → Bool)
    (recs : List (DrecKey × List Nat × Int)) :
    ∀ st stF, runRecords chk recs st = .ok stF → ∀ j,
      (lookInode stF.inodes j).i_link_count =
        (lookInode st.inodes j).i_link_count + countTargets recs j := by
  induction recs with
  | nil =>
    intro st stF h j
    unfold runRecords at h
    cases h
    simp [countTargets]
  | cons r rest ih =>
    intro st stF h j
    obtain ⟨k, v, l⟩ := r
    unfold runRecords at h
    split at h
    · exact Except.noConfusion h
    · rename_i st1 hstep
      have h1 := parse_ok_linkcount _ _ _ _ _ _ hstep j
      have h2 := ih _ _ h j
      rw [h2, h1]
      simp only [countTargets, List.countP_cons]
      by_cases hj : dentryTarget v = j
      · simp [hj]
        omega
      · have hj2 : ¬ j = dentryTarget v := fun c => hj c.symm
        simp [hj, hj2]

/-- C3: every accepted dentry record increments its target inode's link count
by exactly one, and across a whole run of valid records an inode's accumulated
link count equals exactly the number of dentry records that named it as their
target. -/
theorem C3_link_count_accounting (chk : Nat → Nat → Bool) :
    (∀ (key : DrecKey) (val : List Nat) (len : Int) (st st2 : FsState),
      parse_dentry_record chk key val len st = .ok st2 →
      (lookInode st2.inodes (dentryTarget val)).i_link_count =
        (lookInode st.inodes (dentryTarget val)).i_link_count + 1) ∧
    (∀ recs st stF, runRecords chk recs st = .ok stF → ∀ j,
      (lookInode stF.inodes j).i_link_count =
        (lookInode st.inodes j).i_link_count + countTargets recs j) := by
  constructor
  · intro key val len st st2 h
    have hx := parse_ok_linkcount _ _ _ _ _ _ h (dentryTarget val)
    simpa using hx
  · intro recs st stF h j
    exact runRecords_linkcount _ _ _ _ h j

/-- Witness for C3: a concrete two-record run in which inode 5 is named twice
and ends with link count 2. -/
theorem C3_link_count_accounting_witness :
    (lookInode stFW.inodes 5).i_link_count =
      (lookInode initState.inodes 5).i_link_count + countTargets recsW 5 :=
  (C3_link_count_accounting (fun _ _ => true)).2 recsW initState stFW (by decide) 5

/-- Witness for C2: a record whose parent (inode 2) is not yet seen aborts
with the "parent inode missing" report. -/
theorem C2_parent_checks_witness :
    ∃ st', parse_dentry_record (fun _ _ => true) keyOrphanW valW 18 initState =
      .error (st', ⟨"Dentry record", "parent inode missing"⟩) :=
  (C2_parent_checks (fun _ _ => true) keyOrphanW valW 18 initState (by decide)
    (by decide) (by decide)).1 (by decide)

/-- Witness for C4: an accepted record of type 4 sets the target inode's
file-type nibble. -/
theorem C4_dentry_type_checks_witness :
    (lookInode stF1.inodes (dentryTarget valW)).i_mode =
      (lookInode initState.inodes (dentryTarget valW)).i_mode |||
        (readLE valW 16 2 <<< 12) :=
  (C4_dentry_type_checks (fun _ _ => true) keyRootW valW 18 initState (by decide)
    (by decide) (.inl (by decide))).2.2 stF1 (by decide)

/-- Witness for C5: flags 0x14 (reserved bit 0x10 set, valid masked type 4)
abort with the "reserved flags in use." report. -/
theorem C5_reserved_flags_witness :
    ∃ st', parse_dentry_record (fun _ _ => true) keyRootW valResW 18 initState =
      .error (st', ⟨"Dentry record", "reserved flags in use."⟩) :=
  (C5_reserved_flags (fun _ _ => true) keyRootW valResW 18 initState
    (by decide)).2 (by decide) (by decide) (.inl (by decide))

/-- C7 (amended): on every accepted dentry record the external
check_inode_ids consistency check is invoked exactly once, immediately after
the target inode's registry entry is fetched/created and its link count
incremented, and before every remaining registry update (parent child count,
mode, sibling registration). -/
theorem C7_check_order_amended (chk : Nat → Nat → Bool) (key : DrecKey)
    (val : List Nat) (len : Int) (st st2 : FsState)
    (h : parse_dentry_record chk key val len st = .ok st2) :
    ∃ rest : List Event,
      st2.events = st.events ++
        (.getInode (dentryTarget val) :: .linkCountInc (dentryTarget val) ::
         .checkInodeIds (dentryTarget val) key.parent_ino :: rest) ∧
      rest.countP (fun e => isCheckEvent e) = 0 := by
  obtain ⟨_, _, stP, sib, hpp, _, _, _, _, _, hsib0, hsibne⟩ :=
    parse_ok_shape _ _ _ _ _ _ h
  rcases parseParent_ok _ _ _ hpp with ⟨_, rfl⟩ | ⟨_, _, _, _, _, hevents⟩
  · by_cases hs : sib = 0
    · obtain ⟨_, he⟩ := hsib0 hs
      refine ⟨[.modeUpdate (dentryTarget val)], ?_, by simp [isCheckEvent]⟩
      rw [he]
      dsimp only
      simp
    · have he := hsibne hs
      refine ⟨[.modeUpdate (dentryTarget val), .getSibling sib,
        .setOrCheckSibling sib], ?_, by simp [isCheckEvent]⟩
      rw [he]
      dsimp only
      simp
  · by_cases hs : sib = 0
    · obtain ⟨_, he⟩ := hsib0 hs
      refine ⟨[.getInode key.parent_ino, .childCountInc key.parent_ino,
        .modeUpdate (dentryTarget val)], ?_, by simp [isCheckEvent]⟩
      rw [he, hevents]
      dsimp only
      simp
    · have he := hsibne hs
      refine ⟨[.getInode key.parent_ino, .childCountInc key.parent_ino,
        .modeUpdate (dentryTarget val), .getSibling sib,
        .setOrCheckSibling sib], ?_, by simp [isCheckEvent]⟩
      rw [he, hevents]
      dsimp only
      simp

/-- C7 counterexample: in a concrete accepted record the trace shows the
target inode lookup and link-count increment (Inode Registry updates) strictly
before the check_inode_ids call, refuting the claim that the check precedes
any registry update. -/
theorem C7_check_order_counterexample :
    parse_dentry_record (fun _ _ => true) keyRootW valW 18 initState = .ok stF1 ∧
    stF1.events = [.getInode 5, .linkCountInc 5, .checkInodeIds 5 1, .modeUpdate 5] ∧
    stF1.events.indexOf (.linkCountInc 5) < stF1.events.indexOf (.checkInodeIds 5 1) := by
  refine ⟨by decide, by decide, by decide⟩

/-- Witness for the amended C7 on a concrete accepted record. -/
theorem C7_check_order_amended_witness :
    ∃ rest : List Event,
      stF1.events = initState.events ++
        (.getInode (dentryTarget valW) :: .linkCountInc (dentryTarget valW) ::
         .checkInodeIds (dentryTarget valW) keyRootW.parent_ino :: rest) ∧
      rest.countP (fun e => isCheckEvent e) = 0 :=
  C7_check_order_amended (fun _ _ => true) keyRootW valW 18 initState stF1 (by decide)

theorem readLE_take (buf : List Nat) (off n m : Nat) (h : off + n ≤ m) :
    readLE (buf.take m) off n = readLE buf off n := by
  unfold readLE
  rw [List.drop_take, List.take_take]
  congr 1
  congr 1
  exact min_eq_left (by omega)

/-- C9: a sibling-id xfield decoding to 0 is indistinguishable from having
no sibling field: the whole record parse equals the parse of the same record
truncated to its fixed header, and on success the Sibling Registry is
untouched (no get_sibling/set_or_check_sibling events). -/
theorem C9_zero_sibling_id (chk : Nat → Nat → Bool) (key : DrecKey)
    (val : List Nat) (len : Int) (st : FsState)
    (hlen : ¬ len < (sizeof_drec_val : Int))
    (hx : parse_dentry_xfields (val.drop sizeof_drec_val) (len - sizeof_drec_val) = .ok 0) :
    parse_dentry_record chk key val len st =
      parse_dentry_record chk key (val.take sizeof_drec_val)
        (sizeof_drec_val : Int) st ∧
    (∀ st2, parse_dentry_record chk key val len st = .ok st2 →
      st2.siblings = st.siblings ∧
      st2.events.countP (fun e => isSiblingEvent e) =
        st.events.countP (fun e => isSiblingEvent e)) := by
  constructor
  · unfold parse_dentry_record
    rw [if_neg hlen, if_neg (lt_irrefl _)]
    dsimp only
    rw [show dentryTarget (val.take sizeof_drec_val) = dentryTarget val from
      readLE_take val 0 8 sizeof_drec_val (by norm_num [sizeof_drec_val])]
    rw [show readLE (val.take sizeof_drec_val) 16 2 = readLE val 16 2 from
      readLE_take val 16 2 sizeof_drec_val (by norm_num [sizeof_drec_val])]
    rw [hx]
    rw [show (val.take sizeof_drec_val).drop sizeof_drec_val = ([] : List Nat) from by
      rw [List.drop_take]
      simp]
    rw [show (sizeof_drec_val : Int) - (sizeof_drec_val : Int) = 0 from by ring]
    rw [show parse_dentry_xfields [] 0 = Except.ok 0 from by decide]
  · intro st2 hok
    obtain ⟨_, _, stP, sib, hpp, hx2, _, _, _, _, hsib0, _⟩ :=
      parse_ok_shape _ _ _ _ _ _ hok
    have hs0 : sib = 0 := by
      rw [hx] at hx2
      exact ((Except.ok.injEq _ _).mp hx2.symm)
    obtain ⟨hsibs, hevents⟩ := hsib0 hs0
    constructor
    · rw [hsibs]
      rcases parseParent_ok _ _ _ hpp with ⟨_, rfl⟩ | ⟨_, _, _, _, hsb, _⟩
      · rfl
      · rw [hsb]
    · rw [hevents]
      rcases parseParent_ok _ _ _ hpp with ⟨_, rfl⟩ | ⟨_, _, _, _, _, hev⟩
      · dsimp only
        simp [isSiblingEvent, List.countP_append]
      · rw [hev]
        dsimp only
        simp [isSiblingEvent, List.countP_append]

/-- Witness for C9: a record carrying a well-formed sibling-id xfield that
holds 0 behaves exactly like the record without its xfield tail. -/
theorem C9_zero_sibling_id_witness :
    parse_dentry_record (fun _ _ => true) keyRootW valSib0W 34 initState =
      parse_dentry_record (fun _ _ => true) keyRootW (valSib0W.take sizeof_drec_val)
        (sizeof_drec_val : Int) initState :=
  (C9_zero_sibling_id (fun _ _ => true) keyRootW valSib0W 34 initState
    (by decide) (by decide)).1

/-- Witness for C10: when the record with unseen parent 2 aborts, inode 5 is
already registered with link count 1 in the carried state. -/
theorem C10_no_rollback_witness :
    ((stErrW.inodes.lookup (dentryTarget valW)).isSome = true) ∧
    (lookInode stErrW.inodes (dentryTarget valW)).i_link_count =
      (lookInode initState.inodes (dentryTarget valW)).i_link_count + 1 :=
  C10_no_rollback (fun _ _ => true) keyOrphanW valW 18 initState stErrW
    ⟨"Dentry record", "parent inode missing"⟩ (by decide) (by decide)

theorem print_slots_all (env : ProbeEnv) (r : Nat) : ∀ i,
    (∀ k, k < r → env.sb.nx_fs_oid.getD (i + k) 0 ≠ 0) →
    print_slots env i r = (List.range r).map (fun k =>
      .volLine (env.vols (env.sb.nx_fs_oid.getD (i + k) 0)).apfs_volname
               (env.vols (env.sb.nx_fs_oid.getD (i + k) 0)).apfs_fs_alloc_count) := by
  induction r with
  | zero =>
    intro i h
    rfl
  | succ n ih =>
    intro i h
    unfold print_slots
    dsimp only
    rw [if_neg (by simpa using h 0 (Nat.succ_pos n))]
    rw [ih (i + 1) (fun k hk => by
      have h2 := h (k + 1) (by omega)
      have h3 : i + 1 + k = i + (k + 1) := by omega
      rw [h3]
      exact h2)]
    rw [List.range_succ_eq_map, List.map_cons, List.map_map]
    congr 1
    apply List.map_congr_left
    intro a _
    have h3 : i + 1 + a = i + (a + 1) := by omega
    simp [Function.comp, h3]

theorem main_probe_ok_shape (a0 : Arg) (args2 : List Arg) (env : ProbeEnv)
    (h0 : (main_probe (a0 :: args2) env).exit ≠ 1) :
    ∃ ps, scanArgs args2 = .positionals ps ∧ ps.length = 2 ∧
      env.openOk = true ∧ env.readOk = true ∧
      env.sb.nx_magic = APFS_NX_MAGIC ∧ env.csumOk = true ∧
      env.sb.nx_max_file_systems < APFS_NX_MAX_FILE_SYSTEMS := by
  unfold main_probe at h0
  dsimp only at h0
  split at h0
  · exact absurd rfl h0
  · exact absurd rfl h0
  · rename_i ps heq
    split at h0
    · exact absurd rfl h0
    · rename_i hl
      split at h0
      · exact absurd rfl h0
      · rename_i ho
        split at h0
        · exact absurd rfl h0
        · rename_i hr
          split at h0
          · exact absurd rfl h0
          · rename_i hm
            split at h0
            · exact absurd rfl h0
            · rename_i hc
              split at h0
              · exact absurd rfl h0
              · rename_i hn
                refine ⟨ps, heq, by omega, ?_, ?_, ?_, ?_, by omega⟩
                · revert ho
                  cases env.openOk <;> simp
                · revert hr
                  cases env.readOk <;> simp
                · simpa using hm
                · revert hc
                  cases env.csumOk <;> simp

/-- C8: the volume enumeration tool prints, on normal completion, the device
header and one name/allocation-count line per declared filesystem slot and
exits with status 0; it exits with status 1 on usage errors (including an
unrecognized flag, which prints usage), on system errors (open or read
failure) and on superblock errors (bad magic, bad checksum, slot count out of
range). -/
theorem C8_probe_behavior (env : ProbeEnv) (a0 : Arg) (args2 : List Arg) :
    (∀ d nm : String, scanArgs args2 = .positionals [d, nm] →
      env.openOk = true → env.readOk = true →
      env.sb.nx_magic = APFS_NX_MAGIC → env.csumOk = true →
      env.sb.nx_max_file_systems < APFS_NX_MAX_FILE_SYSTEMS →
      (∀ k, k < env.sb.nx_max_file_systems → env.sb.nx_fs_oid.getD k 0 ≠ 0) →
      main_probe (a0 :: args2) env =
        ⟨0, .devHeader d :: .tableHeader ::
          (List.range env.sb.nx_max_file_systems).map (fun k =>
            .volLine (env.vols (env.sb.nx_fs_oid.getD k 0)).apfs_volname
                     (env.vols (env.sb.nx_fs_oid.getD k 0)).apfs_fs_alloc_count)⟩) ∧
    (scanArgs args2 = .sawBadFlag →
      main_probe (a0 :: args2) env = ⟨1, [.usageMsg]⟩) ∧
    (∀ ps, scanArgs args2 = .positionals ps → ps.length ≠ 2 →
      main_probe (a0 :: args2) env = ⟨1, [.usageMsg]⟩) ∧
    (env.openOk = false → (main_probe (a0 :: args2) env).exit = 1) ∧
    (env.readOk = false → (main_probe (a0 :: args2) env).exit = 1) ∧
    (env.sb.nx_magic ≠ APFS_NX_MAGIC ∨ env.csumOk = false ∨
      APFS_NX_MAX_FILE_SYSTEMS ≤ env.sb.nx_max_file_systems →
      (main_probe (a0 :: args2) env).exit = 1) := by
  refine ⟨?_, ?_, ?_, ?_, ?_, ?_⟩
  · intro d nm hscan ho hr hm hc hn hoid
    unfold main_probe
    dsimp only
    rw [hscan]
    dsimp only
    rw [if_neg (by simp), if_neg (by simp [ho]), if_neg (by simp [hr]),
      if_neg (not_not_intro hm), if_neg (by simp [hc]), if_neg (not_le.mpr hn)]
    rw [print_slots_all env env.sb.nx_max_file_systems 0
      (fun k hk => by simpa using hoid k hk)]
    simp
  · intro hscan
    unfold main_probe
    dsimp only
    rw [hscan]
  · intro ps hscan hl
    unfold main_probe
    dsimp only
    rw [hscan]
    dsimp only
    rw [if_pos hl]
  · intro ho
    by_contra hne
    obtain ⟨_, _, _, ho2, _⟩ := main_probe_ok_shape a0 args2 env hne
    rw [ho] at ho2
    exact Bool.noConfusion ho2
  · intro hr
    by_contra hne
    obtain ⟨_, _, _, _, hr2, _⟩ := main_probe_ok_shape a0 args2 env hne
    rw [hr] at hr2
    exact Bool.noConfusion hr2
  · intro hbad
    by_contra hne
    obtain ⟨_, _, _, _, _, hm2, hc2, hn2⟩ := main_probe_ok_shape a0 args2 env hne
    rcases hbad with hm | hc | hn
    · exact hm hm2
    · rw [hc] at hc2
      exact Bool.noConfusion hc2
    · omega

/-- Witness for C8: a concrete two-volume container enumerates both slots
and exits 0. -/
theorem C8_probe_behavior_witness :
    main_probe (Arg.pos "probe" :: [Arg.pos "disk0", Arg.pos "Untitled"]) envW =
      ⟨0, .devHeader "disk0" :: .tableHeader ::
        (List.range envW.sb.nx_max_file_systems).map (fun k =>
          .volLine (envW.vols (envW.sb.nx_fs_oid.getD k 0)).apfs_volname
                   (envW.vols (envW.sb.nx_fs_oid.getD k 0)).apfs_fs_alloc_count)⟩ :=
  (C8_probe_behavior envW (.pos "probe") [.pos "disk0", .pos "Untitled"]).1
    "disk0" "Untitled" rfl rfl rfl rfl rfl (by decide) (by decide)
